import Mathlib

/-!
Shallow embedding of the filename-template engine of the `rawbit` repository
(`src/rawbit/src/parse.rs`): the scanner/compiler `FilenameFormat::parse`, the
renderer `FilenameFormat::render_filename`, the metadata catalog `MD_KIND_MAP`,
and the diagnostic type `Error` with its display logic.

Rust strings are embedded as `List Char`; byte positions are computed with
`Char.utf8Size`, so the byte-index/character-index distinctions of the source
(`str::len`, `str::split_at_checked`, byte slicing) are preserved exactly.
Fallible operations return `Option`; a Rust panic (failed `assert!`,
`unreachable!`, arithmetic overflow, failed `unwrap`) is the explicit
`PResult.panic` outcome.
-/

/-- Embeds `MetadataKind` from `src/rawbit/src/parse.rs`. -/
inductive MetadataKind where
  | CameraMake
  | CameraModel
  | CameraShutterSpeed
  | CameraExposureComp
  | CameraISO
  | CameraFlash
  | LensFStop
  | LensMake
  | LensModel
  | LensFocalLength
  | LensFocusDist
  | ImageColorSpace
  | ImageSequenceNumber
  | ImageHeight
  | ImageWidth
  | ImageBitDepth
  | ImageOriginalFilename
deriving DecidableEq, Repr

/-- Embeds `FmtItem`: literal text, a strftime directive, or a metadata
reference. The `Cow<str>` payloads are embedded as `List Char`. -/
inductive FmtItem where
  | Literal (s : List Char)
  | DateTime (s : List Char)
  | Metadata (k : MetadataKind)
deriving DecidableEq, Repr

/-- Embeds the constant `IMG_ORIG_FNAME_ITEM`. -/
def IMG_ORIG_FNAME_ITEM : FmtItem := FmtItem.Metadata MetadataKind.ImageOriginalFilename

/-- Embeds the static map `MD_KIND_MAP`, in source order. The phf perfect-hash
map is embedded as an association list; `get` is exact-key search. Note the
misspelled key for `CameraFlash` is taken verbatim from the source. -/
def MD_KIND_MAP : List (String × MetadataKind) := [
  ("camera.make", MetadataKind.CameraMake),
  ("camera.model", MetadataKind.CameraModel),
  ("camera.shutter_speed", MetadataKind.CameraShutterSpeed),
  ("camera.iso", MetadataKind.CameraISO),
  ("camera.exposure_compensation", MetadataKind.CameraExposureComp),
  ("camea.flash", MetadataKind.CameraFlash),
  ("lens.make", MetadataKind.LensMake),
  ("lens.model", MetadataKind.LensModel),
  ("lens.focal_length", MetadataKind.LensFocalLength),
  ("lens.focus_distance", MetadataKind.LensFocusDist),
  ("lens.fstop", MetadataKind.LensFStop),
  ("image.width", MetadataKind.ImageWidth),
  ("image.height", MetadataKind.ImageHeight),
  ("image.bit_depth", MetadataKind.ImageBitDepth),
  ("image.color_space", MetadataKind.ImageColorSpace),
  ("image.sequence_number", MetadataKind.ImageSequenceNumber),
  ("image.original_filename", MetadataKind.ImageOriginalFilename)]

/-- Embeds `MD_KIND_MAP.get(s)`: exact key lookup. -/
def mdKindGet (s : List Char) : Option MetadataKind :=
  (MD_KIND_MAP.find? (fun p => p.fst.data = s)).map (fun p => p.snd)

/-- Embeds the free function `expand`: wraps a successful catalog lookup in a
`FmtItem::Metadata`. -/
def expand (s : List Char) : Option FmtItem :=
  (mdKindGet s).map FmtItem.Metadata

/-- Byte length of a string embedded as a character list; embeds `str::len()`. -/
def byteLen : List Char → Nat
  | [] => 0
  | c :: rest => c.utf8Size + byteLen rest

/-- Embeds `str::split_at_checked(n)`: splits at byte index `n` when `n` lands
on a character boundary, otherwise `none`. -/
def splitAtChecked : List Char → Nat → Option (List Char × List Char)
  | l, 0 => some ([], l)
  | [], _ + 1 => none
  | c :: rest, n + 1 =>
    if c.utf8Size ≤ n + 1 then
      match splitAtChecked rest (n + 1 - c.utf8Size) with
      | some (pre, suf) => some (c :: pre, suf)
      | none => none
    else none

/-- Embeds the local `ScanState` of `FilenameFormat::parse`. -/
inductive ScanState where
  | start
  | literal
  | dateTime
  | expansionStart
  | expansionBody
deriving DecidableEq, Repr

/-- Embeds the stateful `take_while` closure of `FilenameFormat::parse`: given
the current scan state, the end flag, and the remaining characters, returns how
many characters the closure accepted together with the final scan state (the
value left in the captured `state` variable). -/
def takeCount : ScanState → Bool → List Char → Nat × ScanState
  | st, _, [] => (0, st)
  | st, true, _ :: _ => (0, st)
  | st, false, c :: rest =>
      match st with
      | ScanState.start =>
        let st1 := if c = '%' then ScanState.dateTime
                   else if c = '\x7b' then ScanState.expansionStart
                   else ScanState.literal
        let r := takeCount st1 false rest
        (r.fst + 1, r.snd)
      | ScanState.expansionStart =>
        if c = '\x7b' then
          let r := takeCount ScanState.literal true rest
          (r.fst + 1, r.snd)
        else
          let r := takeCount ScanState.expansionBody false rest
          (r.fst + 1, r.snd)
      | ScanState.dateTime =>
        let r := takeCount ScanState.dateTime true rest
        (r.fst + 1, r.snd)
      | ScanState.expansionBody =>
        if c = '\x7d' then
          let r := takeCount ScanState.expansionBody true rest
          (r.fst + 1, r.snd)
        else
          let r := takeCount ScanState.expansionBody false rest
          (r.fst + 1, r.snd)
      | ScanState.literal =>
        if c = '%' ∨ c = '\x7b' then (0, ScanState.literal)
        else
          let r := takeCount ScanState.literal false rest
          (r.fst + 1, r.snd)

/-- Embeds `ErrorKind` from `src/rawbit/src/parse.rs`. -/
inductive ErrorKind where
  | UnterminatedExpansion
  | InvalidExpansion
  | Unknown
deriving DecidableEq, Repr

/-- Embeds the diagnostic struct `Error`: the error kind, the string stored in
the `original` field (whatever string the parser actually passed), and the
`start`/`width` offsets (`u16` in the source; embedded as `Nat`, with the
range enforcement of `Error::new` modelled in `errResult`). -/
structure ParseError where
  kind : ErrorKind
  original : List Char
  start : Nat
  width : Nat
deriving DecidableEq, Repr

/-- Outcome of running `FilenameFormat::parse`: a compiled item sequence, a
returned error, or a Rust panic (`assert!` failure, `unreachable!`, integer
overflow, failed `unwrap`). `fuelOut` is an artifact of the fuel-based
embedding of the `while` loop and is proved unreachable below. -/
inductive PResult where
  | ok (items : List FmtItem)
  | err (e : ParseError)
  | panic
  | fuelOut
deriving DecidableEq, Repr

/-- Embeds `Error::new`: asserts `original.len() < u16::MAX` and converts
`start`/`width` to `u16` via `unwrap`; any violation is a panic. -/
def errResult (start width : Nat) (original : List Char) (kind : ErrorKind) : PResult :=
  if byteLen original < 65535 ∧ start ≤ 65535 ∧ width ≤ 65535 then
    PResult.err ⟨kind, original, start, width⟩
  else PResult.panic

/-- Embeds the `while !to_parse.is_empty()` loop of `FilenameFormat::parse`.
The loop consumes at least one character per iteration, so fuel
`to_parse.length + 1` never runs out (`parseLoop_no_fuelOut`). Error
constructors receive exactly the strings the source passes: the remainder
`rem` after the split (the source reassigns `to_parse = remainder` first), or
the unsplit `to_parse` in the `split_at_checked` failure branch, whose width is
`to_parse.len() - consumed` (a panic when that subtraction underflows). -/
def parseLoop : Nat → List Char → Nat → List FmtItem → PResult
  | 0, _, _, _ => PResult.fuelOut
  | _ + 1, [], _, acc => PResult.ok acc
  | fuel + 1, c :: rest, consumed, acc =>
    let tc := takeCount ScanState.start false (c :: rest)
    match splitAtChecked (c :: rest) tc.fst with
    | none =>
      if byteLen (c :: rest) < consumed then PResult.panic
      else errResult consumed (byteLen (c :: rest) - consumed) (c :: rest) ErrorKind.Unknown
    | some (s, rem) =>
      if s = ['\x7b', '\x7b'] then
        parseLoop fuel rem (consumed + byteLen s) (acc ++ [FmtItem.Literal ['\x7b']])
      else
        match tc.snd with
        | ScanState.literal => parseLoop fuel rem (consumed + byteLen s) (acc ++ [FmtItem.Literal s])
        | ScanState.dateTime =>
          if byteLen s ≠ 2 then errResult consumed (byteLen s) rem ErrorKind.InvalidExpansion
          else parseLoop fuel rem (consumed + byteLen s) (acc ++ [FmtItem.DateTime s])
        | ScanState.expansionBody =>
          if s.head? = some '\x7b' then
            if s.getLast? = some '\x7d' then
              match expand ((s.drop 1).dropLast) with
              | some item => parseLoop fuel rem (consumed + byteLen s) (acc ++ [item])
              | none => errResult consumed (byteLen s) rem ErrorKind.InvalidExpansion
            else errResult consumed (byteLen s) rem ErrorKind.UnterminatedExpansion
          else PResult.panic
        | _ => PResult.panic

namespace FilenameFormat

/-- The scan loop of `FilenameFormat::parse` run on a whole format string:
the item sequence before the auto-append step. -/
def parseItems (fmt : List Char) : PResult := parseLoop (fmt.length + 1) fmt 0 []

/-- Embeds `FilenameFormat::parse`: runs the scan loop, then appends
`IMG_ORIG_FNAME_ITEM` when the scanned items do not already contain it. -/
def parse (fmt : List Char) : PResult :=
  match parseItems fmt with
  | PResult.ok items =>
    PResult.ok (if IMG_ORIG_FNAME_ITEM ∈ items then items else items ++ [IMG_ORIG_FNAME_ITEM])
  | r => r

end FilenameFormat

/-- Convenience wrapper: parse a Lean string literal as a format string. -/
def parseS (s : String) : PResult := FilenameFormat.parse s.data

/-- Models `rawler::Rational` (a dependency type, not repository code): an
unsigned numerator/denominator pair whose `Display` prints
`numerator/denominator`. The repository relies on that rendering: the
`LensFocalLength` arm of `expand_with_metadata` replaces the printed `/`. -/
structure Rational where
  n : Nat
  d : Nat
deriving DecidableEq, Repr

/-- The `Display`/`ToString` text of a `rawler::Rational`. -/
def ratToStr (r : Rational) : String := toString r.n ++ "/" ++ toString r.d

/-- Models the `Exif` record exposed by the `rawler` dependency, restricted to
the fields `expand_with_metadata` and `render_filename` read. -/
structure Exif where
  iso_speed : Option Nat
  shutter_speed_value : Option Rational
  lens_make : Option String
  lens_model : Option String
  focal_length : Option Rational
  date_time_original : Option String
deriving DecidableEq, Repr

/-- Models `rawler::decoders::RawMetadata`, restricted to the fields the
template engine reads. -/
structure RawMetadata where
  make : String
  model : String
  exif : Exif
deriving DecidableEq, Repr

/-- Embeds `str::replace(char, str)` for a single-character pattern and
single-character replacement, as used in the `LensFocalLength` arm. -/
def replaceCharWith (pat rep : Char) (s : String) : String :=
  String.mk (s.data.map (fun c => if c = pat then rep else c))

namespace MetadataKind

/-- Embeds `MetadataKind::expand_with_metadata`: the per-kind projection of a
metadata record into the text the item contributes. Absent optional fields
contribute the empty string; the unimplemented kinds log a warning (a pure
side effect, dropped here) and contribute the empty string. -/
def expand_with_metadata (k : MetadataKind) (md : RawMetadata) (original : String) : String :=
  match k with
  | CameraMake => md.make
  | CameraModel => md.model
  | CameraISO =>
    match md.exif.iso_speed with
    | none => ""
    | some v => toString v
  | CameraShutterSpeed =>
    match md.exif.shutter_speed_value with
    | none => ""
    | some v => ratToStr v
  | LensMake =>
    match md.exif.lens_make with
    | none => ""
    | some s => s
  | LensModel =>
    match md.exif.lens_model with
    | none => ""
    | some s => s
  | LensFocalLength =>
    match md.exif.focal_length with
    | none => ""
    | some v => replaceCharWith '/' '_' (ratToStr v)
  | ImageOriginalFilename => original
  | _ => ""

end MetadataKind

/-- Models `chrono::NaiveDateTime` (a dependency type): a plain
year/month/day/hour/minute/second record. -/
structure NaiveDateTime where
  year : Nat
  month : Nat
  day : Nat
  hour : Nat
  minute : Nat
  second : Nat
deriving DecidableEq, Repr

/-- Splits a character list on a separator character: helper for the modelled
EXIF timestamp parse. -/
def splitOnChar (sep : Char) : List Char → List (List Char)
  | [] => [[]]
  | c :: rest =>
    let r := splitOnChar sep rest
    if c = sep then [] :: r
    else
      match r with
      | h :: t => (c :: h) :: t
      | [] => [[c]]

/-- Numeric value of a nonempty all-digit character run, `none` otherwise. -/
def digitsVal : List Char → Option Nat
  | [] => none
  | l =>
    if l.all Char.isDigit then
      some (l.foldl (fun a c => a * 10 + (c.toNat - 48)) 0)
    else none

/-- Models `chrono::NaiveDateTime::parse_from_str` specialised to the fixed
source format `EXIF_DT_FMT` (`%Y:%m:%d %H:%M:%S`), an external dependency
call: accepts colon/space separated numeric fields in calendar range and
rejects everything else (in particular the empty string). -/
def parseExifDate (s : String) : Option NaiveDateTime :=
  match splitOnChar ' ' s.data with
  | [d, t] =>
    match splitOnChar ':' d, splitOnChar ':' t with
    | [ys, ms, ds], [hs, mins, ss] =>
      match digitsVal ys, digitsVal ms, digitsVal ds, digitsVal hs, digitsVal mins, digitsVal ss with
      | some y, some mo, some da, some h, some mi, some se =>
        if 1 ≤ mo ∧ mo ≤ 12 ∧ 1 ≤ da ∧ da ≤ 31 ∧ h ≤ 23 ∧ mi ≤ 59 ∧ se ≤ 59 then
          some ⟨y, mo, da, h, mi, se⟩
        else none
      | _, _, _, _, _, _ => none
    | _, _ => none
  | _ => none

/-- Zero-pads a number to two digits, for the modelled strftime output. -/
def pad2 (n : Nat) : String := if n < 10 then "0" ++ toString n else toString n

/-- Space-pads a number to two characters, for the modelled strftime output. -/
def padSp2 (n : Nat) : String := if n < 10 then " " ++ toString n else toString n

/-- Zero-pads a year to four digits, for the modelled strftime output. -/
def pad4 (n : Nat) : String :=
  if n < 10 then "000" ++ toString n
  else if n < 100 then "00" ++ toString n
  else if n < 1000 then "0" ++ toString n
  else toString n

/-- Twelve-hour clock value of an hour, for the modelled strftime output. -/
def hour12 (h : Nat) : Nat := if h % 12 = 0 then 12 else h % 12

/-- The chrono strftime specifiers accepted on a naive timestamp whose output
needs calendar arithmetic (month/weekday names, week and ordinal numbers,
fractional seconds, unix timestamp). The claims never inspect their text, so
they are modelled as defined with placeholder text; what matters is that
chrono accepts them. -/
def calendarSpecChars : List Char :=
  ['b', 'B', 'h', 'a', 'A', 'w', 'u', 'U', 'W', 'G', 'g', 'V', 'j', 'v', 'f', 's']

/-- Models chrono's strftime specifier table for a two-character `%c`
directive applied to a `NaiveDateTime`: `some` text when chrono accepts the
specifier, `none` when its parser yields `Item::Error` (unrecognised
specifiers such as `q`, a padding modifier with nothing following, digits) or
when formatting fails (timezone specifiers `z`/`Z` on a naive timestamp). -/
def specExpansion (dt : NaiveDateTime) : Char → Option String
  | 'Y' => some (pad4 dt.year)
  | 'C' => some (pad2 (dt.year / 100))
  | 'y' => some (pad2 (dt.year % 100))
  | 'm' => some (pad2 dt.month)
  | 'd' => some (pad2 dt.day)
  | 'e' => some (padSp2 dt.day)
  | 'H' => some (pad2 dt.hour)
  | 'k' => some (padSp2 dt.hour)
  | 'I' => some (pad2 (hour12 dt.hour))
  | 'l' => some (padSp2 (hour12 dt.hour))
  | 'P' => some (if dt.hour < 12 then "am" else "pm")
  | 'p' => some (if dt.hour < 12 then "AM" else "PM")
  | 'M' => some (pad2 dt.minute)
  | 'S' => some (pad2 dt.second)
  | 'R' => some (pad2 dt.hour ++ ":" ++ pad2 dt.minute)
  | 'T' => some (pad2 dt.hour ++ ":" ++ pad2 dt.minute ++ ":" ++ pad2 dt.second)
  | 'X' => some (pad2 dt.hour ++ ":" ++ pad2 dt.minute ++ ":" ++ pad2 dt.second)
  | 'D' => some (pad2 dt.month ++ "/" ++ pad2 dt.day ++ "/" ++ pad2 (dt.year % 100))
  | 'x' => some (pad2 dt.month ++ "/" ++ pad2 dt.day ++ "/" ++ pad2 (dt.year % 100))
  | 'F' => some (pad4 dt.year ++ "-" ++ pad2 dt.month ++ "-" ++ pad2 dt.day)
  | 't' => some "\t"
  | 'n' => some "\n"
  | '%' => some "%"
  | c => if c ∈ calendarSpecChars then some (String.mk [c]) else none

/-- Models `date.format(pattern).to_string()` of the chrono dependency: the
lazy `DelayedFormat` walks the pattern; an invalid specifier makes
`StrftimeItems` yield `Item::Error`, `Display` then returns an error, and the
`ToString` call in `render_filename` panics. `none` models that panic; `some`
is the produced text. A trailing lone `%` is likewise an error. -/
def formatDirective (dt : NaiveDateTime) : List Char → Option String
  | [] => some ""
  | ['%'] => none
  | '%' :: c :: rest =>
    match specExpansion dt c, formatDirective dt rest with
    | some s, some r => some (s ++ r)
    | _, _ => none
  | c :: rest => (formatDirective dt rest).map (fun r => String.mk [c] ++ r)

/-- One loop step of `render_filename`: the string contribution of a single
`FmtItem`, given the lazily computed capture date. `none` models the panic of
the `to_string()` call in the `DateTime` arm; when the date is absent that arm
returns `Cow::Borrowed("")` without ever invoking the formatter. -/
def renderItem (date : Option NaiveDateTime) (md : RawMetadata) (original : String) :
    FmtItem → Option String
  | FmtItem.Literal l => some (String.mk l)
  | FmtItem.Metadata k => some (MetadataKind.expand_with_metadata k md original)
  | FmtItem.DateTime item =>
    match date with
    | none => some ""
    | some d => formatDirective d item

namespace FilenameFormat

/-- Embeds `FilenameFormat::render_filename`: parses the capture date once
(absent field defaults to the empty string, which fails to parse), then folds
the items' contributions left to right into the filename accumulator. The
result is `none` when rendering any item panics (the chrono `to_string()`
panic on an invalid directive); otherwise `some` filename. -/
def render_filename (items : List FmtItem) (original_filename : String) (md : RawMetadata) :
    Option String :=
  let date := parseExifDate (md.exif.date_time_original.getD "")
  (items.map (renderItem date md original_filename)).foldl
    (fun acc contrib =>
      match acc, contrib with
      | some a, some b => some (a ++ b)
      | _, _ => none)
    (some "")

end FilenameFormat

/-- Embeds byte-slicing `&s[start..stop]` of a Rust `str`: `none` models the
panic when an index is out of range or not a character boundary. -/
def dropBytes : List Char → Nat → Option (List Char)
  | l, 0 => some l
  | [], _ + 1 => none
  | c :: rest, n + 1 =>
    if c.utf8Size ≤ n + 1 then dropBytes rest (n + 1 - c.utf8Size) else none

/-- Prefix of a character list occupying exactly `n` bytes, `none` when `n`
overruns the list or misses a character boundary. -/
def takeBytes : List Char → Nat → Option (List Char)
  | _, 0 => some []
  | [], _ + 1 => none
  | c :: rest, n + 1 =>
    if c.utf8Size ≤ n + 1 then (takeBytes rest (n + 1 - c.utf8Size)).map (c :: ·)
    else none

/-- Embeds `&s[start..stop]`. -/
def sliceBytes (l : List Char) (start stop : Nat) : Option (List Char) :=
  if start ≤ stop then
    match dropBytes l start with
    | none => none
    | some suffix => takeBytes suffix (stop - start)
  else none

/-- The human-readable kind text used by `Display for Error`. -/
def kindMsg : ErrorKind → String
  | ErrorKind.UnterminatedExpansion => "unterminated variable expansion"
  | ErrorKind.InvalidExpansion => "invalid variable expansion"
  | ErrorKind.Unknown => "unknown error"

/-- Embeds `Display for Error` together with `Error::print_error_details`: the
three diagnostic lines (message naming the offending slice
`&original[start..start+width]`, the stored string, and the padded underline).
`none` models the panic of the byte slice when `start + width` overruns or
misaligns with the stored `original`. -/
def errorDisplay (e : ParseError) : Option (List String) :=
  match sliceBytes e.original e.start (e.start + e.width) with
  | none => none
  | some seq =>
    let padding := String.mk (List.replicate e.start ' ')
    let underline :=
      if e.width ≤ 1 then "^" else "^" ++ String.mk (List.replicate (e.width - 1) '~')
    some [kindMsg e.kind ++ ": " ++ String.mk seq,
          "> " ++ String.mk e.original,
          "> " ++ padding ++ underline]

/-- A metadata record with every optional field absent. -/
def mdEmpty : RawMetadata := ⟨"", "", ⟨none, none, none, none, none, none⟩⟩

/-- A metadata record whose capture date is present and parses under the EXIF
timestamp format. -/
def mdDated : RawMetadata :=
  ⟨"", "", ⟨none, none, none, none, none, some "2023:05:01 10:20:30"⟩⟩

/-- Which `MetadataKind`s read an `Option` field of the metadata record, and
the proposition that the corresponding field is absent. Kinds whose projection
never reads an `Option` field are mapped to `False`. -/
def fieldAbsent (k : MetadataKind) (md : RawMetadata) : Prop :=
  match k with
  | MetadataKind.CameraISO => md.exif.iso_speed = none
  | MetadataKind.CameraShutterSpeed => md.exif.shutter_speed_value = none
  | MetadataKind.LensMake => md.exif.lens_make = none
  | MetadataKind.LensModel => md.exif.lens_model = none
  | MetadataKind.LensFocalLength => md.exif.focal_length = none
  | _ => False

/-- The kinds the `_` arm of `expand_with_metadata` catches: accepted by the
catalog but not wired to any data projection. -/
def unimplementedKinds : List MetadataKind :=
  [MetadataKind.CameraExposureComp, MetadataKind.CameraFlash, MetadataKind.LensFStop,
   MetadataKind.LensFocusDist, MetadataKind.ImageColorSpace, MetadataKind.ImageSequenceNumber,
   MetadataKind.ImageHeight, MetadataKind.ImageWidth, MetadataKind.ImageBitDepth]

/-- Whether a key's character list starts with the given pattern. -/
def keyStartsWith : List Char → List Char → Bool
  | [], _ => true
  | _ :: _, [] => false
  | p :: ps, c :: cs => p == c && keyStartsWith ps cs

theorem splitAtChecked_spec (l : List Char) : ∀ n pre suf,
    splitAtChecked l n = some (pre, suf) → l = pre ++ suf ∧ byteLen pre = n := by
  induction l with
  | nil =>
    intro n pre suf h
    cases n with
    | zero =>
      simp only [splitAtChecked, Option.some.injEq, Prod.mk.injEq] at h
      obtain ⟨h1, h2⟩ := h
      subst h1; subst h2
      exact ⟨rfl, rfl⟩
    | succ m => simp [splitAtChecked] at h
  | cons c rest ih =>
    intro n pre suf h
    cases n with
    | zero =>
      simp only [splitAtChecked, Option.some.injEq, Prod.mk.injEq] at h
      obtain ⟨h1, h2⟩ := h
      subst h1; subst h2
      exact ⟨rfl, rfl⟩
    | succ m =>
      simp only [splitAtChecked] at h
      split at h
      case isTrue hle =>
        cases hrec : splitAtChecked rest (m + 1 - c.utf8Size) with
        | none => rw [hrec] at h; simp at h
        | some pr =>
          obtain ⟨pre1, suf1⟩ := pr
          rw [hrec] at h
          simp only [Option.some.injEq, Prod.mk.injEq] at h
          obtain ⟨h1, h2⟩ := h
          subst h1; subst h2
          obtain ⟨hl, hb⟩ := ih _ _ _ hrec
          constructor
          · rw [hl]; rfl
          · show c.utf8Size + byteLen pre1 = m + 1
            rw [hb]
            omega
      case isFalse => simp at h

theorem splitAtChecked_suffix_shorter (l pre suf : List Char) (n : Nat)
    (hn : 1 ≤ n) (h : splitAtChecked l n = some (pre, suf)) :
    suf.length < l.length := by
  obtain ⟨hl, hb⟩ := splitAtChecked_spec l n pre suf h
  have hpre : pre ≠ [] := by
    intro hnil
    rw [hnil] at hb
    simp [byteLen] at hb
    omega
  rw [hl, List.length_append]
  cases pre with
  | nil => exact absurd rfl hpre
  | cons a as => simp

theorem takeCount_start_pos (c : Char) (rest : List Char) :
    1 ≤ (takeCount ScanState.start false (c :: rest)).fst := by
  simp only [takeCount]
  omega

/-- The fuel supplied by `parseItems` never runs out: each loop iteration
consumes at least one character. -/
theorem parseLoop_no_fuelOut :
    ∀ (fuel : Nat) (l : List Char) (consumed : Nat) (acc : List FmtItem),
      l.length < fuel → parseLoop fuel l consumed acc ≠ PResult.fuelOut := by
  intro fuel
  induction fuel with
  | zero => intro l consumed acc h; omega
  | succ f ih =>
    intro l consumed acc h
    cases l with
    | nil => simp [parseLoop]
    | cons c rest =>
      have hlen : rest.length + 1 ≤ f := by simpa using Nat.lt_succ_iff.mp h
      simp only [parseLoop]
      cases hs : splitAtChecked (c :: rest) (takeCount ScanState.start false (c :: rest)).fst with
      | none =>
        simp only []
        split
        · exact fun hcontra => by cases hcontra
        · unfold errResult; split <;> intro hcontra <;> cases hcontra
      | some pr =>
        obtain ⟨s, rem⟩ := pr
        have hrem : rem.length < f := by
          have := splitAtChecked_suffix_shorter (c :: rest) s rem _
            (takeCount_start_pos c rest) hs
          simp at this
          omega
        simp only []
        split
        · exact ih rem _ _ hrem
        · split
          · exact ih rem _ _ hrem
          · split
            · unfold errResult; split <;> intro hcontra <;> cases hcontra
            · exact ih rem _ _ hrem
          · split
            · split
              · split
                · exact ih rem _ _ hrem
                · unfold errResult; split <;> intro hcontra <;> cases hcontra
              · unfold errResult; split <;> intro hcontra <;> cases hcontra
            · intro hcontra; cases hcontra
          · intro hcontra; cases hcontra

/-- The parser never exhausts its fuel on any input. -/
theorem parseItems_ne_fuelOut (fmt : List Char) :
    FilenameFormat.parseItems fmt ≠ PResult.fuelOut :=
  parseLoop_no_fuelOut (fmt.length + 1) fmt 0 [] (Nat.lt_succ_self _)

/-- C1 (amended): every successfully compiled item sequence contains at least
one `MetadataRef(ImageOriginalFilename)`; when the scanned user items already
contain it the sequence is exactly the user items (so its multiplicity is
whatever the user wrote), and when they omit it exactly one copy is appended
as the last item. -/
theorem parse_original_filename_membership (fmt : List Char) (items us : List FmtItem)
    (hp : FilenameFormat.parse fmt = PResult.ok items)
    (hs : FilenameFormat.parseItems fmt = PResult.ok us) :
    IMG_ORIG_FNAME_ITEM ∈ items ∧
      (IMG_ORIG_FNAME_ITEM ∈ us → items = us) ∧
      (IMG_ORIG_FNAME_ITEM ∉ us →
        items = us ++ [IMG_ORIG_FNAME_ITEM] ∧ items.count IMG_ORIG_FNAME_ITEM = 1) := by
  unfold FilenameFormat.parse at hp
  rw [hs] at hp
  have hp3 : PResult.ok
      (if IMG_ORIG_FNAME_ITEM ∈ us then us else us ++ [IMG_ORIG_FNAME_ITEM])
      = PResult.ok items := hp
  injection hp3 with h2
  by_cases h : IMG_ORIG_FNAME_ITEM ∈ us
  · rw [if_pos h] at h2
    subst h2
    exact ⟨h, fun _ => rfl, fun hn => absurd h hn⟩
  · rw [if_neg h] at h2
    subst h2
    refine ⟨List.mem_append.mpr (Or.inr (by simp)), fun hmem => absurd hmem h,
      fun _ => ⟨rfl, ?_⟩⟩
    rw [List.count_append]
    have hz : us.count IMG_ORIG_FNAME_ITEM = 0 := List.count_eq_zero.mpr h
    simp [hz]

/-- C1 (witness): instantiates the auto-append theorem on the format `%Y`. -/
theorem parse_original_filename_membership_witness :
    IMG_ORIG_FNAME_ITEM ∈ [FmtItem.DateTime ['%', 'Y'], IMG_ORIG_FNAME_ITEM] ∧
      (IMG_ORIG_FNAME_ITEM ∈ [FmtItem.DateTime ['%', 'Y']] →
        [FmtItem.DateTime ['%', 'Y'], IMG_ORIG_FNAME_ITEM] = [FmtItem.DateTime ['%', 'Y']]) ∧
      (IMG_ORIG_FNAME_ITEM ∉ [FmtItem.DateTime ['%', 'Y']] →
        [FmtItem.DateTime ['%', 'Y'], IMG_ORIG_FNAME_ITEM]
            = [FmtItem.DateTime ['%', 'Y']] ++ [IMG_ORIG_FNAME_ITEM] ∧
          [FmtItem.DateTime ['%', 'Y'], IMG_ORIG_FNAME_ITEM].count IMG_ORIG_FNAME_ITEM = 1) :=
  parse_original_filename_membership "%Y".data
    [FmtItem.DateTime ['%', 'Y'], IMG_ORIG_FNAME_ITEM] [FmtItem.DateTime ['%', 'Y']]
    (by decide) (by decide)

/-- C1 (counterexample): a format referencing `image.original_filename` twice
compiles successfully to a sequence containing the item twice, so "exactly one
occurrence in every successful compilation" is false. -/
theorem parse_duplicate_original_filename_counterexample :
    parseS "\x7bimage.original_filename\x7d\x7bimage.original_filename\x7d"
        = PResult.ok [IMG_ORIG_FNAME_ITEM, IMG_ORIG_FNAME_ITEM] ∧
      [IMG_ORIG_FNAME_ITEM, IMG_ORIG_FNAME_ITEM].count IMG_ORIG_FNAME_ITEM = 2 := by
  exact ⟨by decide, by decide⟩

/-- C2: rendering is not total. The format `%q` compiles (the compiler checks
directive length only), and rendering the compiled template against a
metadata record whose capture date parses panics — chrono's formatter rejects
the `q` specifier and the `to_string()` call aborts (modelled as `none`). The
degrade paths the claim correctly describes are proved alongside: the same
template renders fine when the date is absent, the filename is the in-order
fold of per-item contributions, and absent optional fields, absent or
unparsable capture dates, and unimplemented kinds each contribute the empty
string. -/
theorem render_filename_panics_on_invalid_directive :
    parseS "%q" = PResult.ok [FmtItem.DateTime ['%', 'q'], IMG_ORIG_FNAME_ITEM]
      ∧ FilenameFormat.render_filename [FmtItem.DateTime ['%', 'q'], IMG_ORIG_FNAME_ITEM]
          "DSC0001" mdDated = none
      ∧ FilenameFormat.render_filename [FmtItem.DateTime ['%', 'q'], IMG_ORIG_FNAME_ITEM]
          "DSC0001" mdEmpty = some "DSC0001"
      ∧ (∀ (items : List FmtItem) (original : String) (md : RawMetadata),
          FilenameFormat.render_filename items original md
            = (items.map (renderItem (parseExifDate (md.exif.date_time_original.getD ""))
                md original)).foldl
                (fun acc contrib =>
                  match acc, contrib with
                  | some a, some b => some (a ++ b)
                  | _, _ => none)
                (some ""))
      ∧ (∀ k md (original : String), fieldAbsent k md →
          MetadataKind.expand_with_metadata k md original = "")
      ∧ (∀ md (original : String) (d : List Char),
          parseExifDate (md.exif.date_time_original.getD "") = none →
          renderItem (parseExifDate (md.exif.date_time_original.getD "")) md original
              (FmtItem.DateTime d) = some "")
      ∧ (∀ k ∈ unimplementedKinds, ∀ md (original : String),
          MetadataKind.expand_with_metadata k md original = "") := by
  refine ⟨by decide, by decide, by decide, fun items original md => rfl, ?_, ?_, ?_⟩
  · intro k md original hk
    cases k <;> simp_all [MetadataKind.expand_with_metadata, fieldAbsent]
  · intro md original d h
    simp [renderItem, h]
  · intro k hk md original
    fin_cases hk <;> rfl

/-- C2 (witness): instantiates the degrade paths on a record with every
optional field absent — the ISO item contributes the empty string and a date
item contributes the empty string without panicking. -/
theorem render_filename_panics_on_invalid_directive_witness :
    MetadataKind.expand_with_metadata MetadataKind.CameraISO mdEmpty "DSC0001" = ""
      ∧ renderItem (parseExifDate (mdEmpty.exif.date_time_original.getD "")) mdEmpty "DSC0001"
          (FmtItem.DateTime ['%', 'Y']) = some "" :=
  ⟨render_filename_panics_on_invalid_directive.2.2.2.2.1 MetadataKind.CameraISO mdEmpty
      "DSC0001" rfl,
   render_filename_panics_on_invalid_directive.2.2.2.2.2.1 mdEmpty "DSC0001" ['%', 'Y']
      (by decide)⟩

/-- C3: the parse error for `ab{x` stores the empty remainder, not the
original format string, in its `original` field (the source passes `to_parse`
after reassigning it to the remainder); rendering that error panics because
the `start..start+width` slice overruns the stored string, whereas the error
carrying the true original would display the three intended diagnostic
lines. -/
theorem parse_error_drops_original_string :
    parseS "ab\x7bx" = PResult.err ⟨ErrorKind.UnterminatedExpansion, [], 2, 2⟩
      ∧ ("ab\x7bx".data ≠ ([] : List Char))
      ∧ errorDisplay ⟨ErrorKind.UnterminatedExpansion, [], 2, 2⟩ = none
      ∧ errorDisplay ⟨ErrorKind.UnterminatedExpansion, "ab\x7bx".data, 2, 2⟩ =
          some ["unterminated variable expansion: \x7bx", "> ab\x7bx", ">   ^~"] := by
  exact ⟨by decide, by decide, by decide, by decide⟩

/-- C4: the defensive `Unknown` fallback is reachable — the single multi-byte
character `é` makes the scanner hand a character count to the byte-indexed
`split_at_checked`, which fails, and compile returns an `Unknown` error. -/
theorem parse_unknown_error_reachable :
    parseS "é" = PResult.err ⟨ErrorKind.Unknown, "é".data, 0, 2⟩ := by decide

/-- C5: the shutter-speed projection renders the raw `1/250` text without
replacing `/` by `_` (the replacement the spec prescribes, and which the
neighbouring focal-length arm performs); the absent case does contribute the
empty string. -/
theorem shutter_speed_keeps_slash :
    MetadataKind.expand_with_metadata MetadataKind.CameraShutterSpeed
        ⟨"", "", ⟨none, some ⟨1, 250⟩, none, none, none, none⟩⟩ "x" = "1/250"
      ∧ replaceCharWith '/' '_' (ratToStr ⟨1, 250⟩) = "1_250"
      ∧ ("1/250" : String) ≠ "1_250"
      ∧ MetadataKind.expand_with_metadata MetadataKind.LensFocalLength
          ⟨"", "", ⟨none, none, none, none, some ⟨1, 250⟩, none⟩⟩ "x" = "1_250"
      ∧ MetadataKind.expand_with_metadata MetadataKind.CameraShutterSpeed mdEmpty "x" = "" := by
  exact ⟨by decide, by decide, by decide, by decide, by decide⟩

/-- C6: a `%` followed by any single-byte character compiles to the
two-character directive span, and a format ending right after `%` fails with
`InvalidExpansion`; but a `%` followed by a multi-byte character such as `é`
does not yield a directive — the byte/character mismatch sends compile into
the `Unknown` fallback instead. -/
theorem percent_consumes_one_character :
    (∀ c : Char, c.utf8Size = 1 →
        FilenameFormat.parse ['%', c]
          = PResult.ok [FmtItem.DateTime ['%', c], IMG_ORIG_FNAME_ITEM])
      ∧ parseS "%" = PResult.err ⟨ErrorKind.InvalidExpansion, [], 0, 1⟩
      ∧ parseS "%é" = PResult.err ⟨ErrorKind.Unknown, "%é".data, 0, 3⟩ := by
  refine ⟨?_, by decide, by decide⟩
  intro c h
  have h37 : ('%' : Char).utf8Size = 1 := by decide
  have htc : takeCount ScanState.start false ['%', c] = (2, ScanState.dateTime) := by
    simp [takeCount]
  have hsp : splitAtChecked ['%', c] 2 = some (['%', c], []) := by
    simp [splitAtChecked, h, h37]
  have hloop : parseLoop 3 ['%', c] 0 [] = PResult.ok [FmtItem.DateTime ['%', c]] := by
    simp [parseLoop, htc, hsp, byteLen, h, h37]
  unfold FilenameFormat.parse FilenameFormat.parseItems
  simp [hloop, IMG_ORIG_FNAME_ITEM]

/-- C6 (witness): instantiates the directive theorem at the single-byte
character `Q`. -/
theorem percent_consumes_one_character_witness :
    FilenameFormat.parse ['%', 'Q']
      = PResult.ok [FmtItem.DateTime ['%', 'Q'], IMG_ORIG_FNAME_ITEM] :=
  percent_consumes_one_character.1 'Q' (by decide)

/-- C7: `compile("%Y-%m-%d_{camera.make}")` succeeds with exactly the claimed
item sequence, the final original-filename item auto-appended. -/
theorem parse_strftime_example :
    parseS "%Y-%m-%d_\x7bcamera.make\x7d"
      = PResult.ok [FmtItem.DateTime ['%', 'Y'], FmtItem.Literal ['-'],
          FmtItem.DateTime ['%', 'm'], FmtItem.Literal ['-'],
          FmtItem.DateTime ['%', 'd'], FmtItem.Literal ['_'],
          FmtItem.Metadata MetadataKind.CameraMake,
          FmtItem.Metadata MetadataKind.ImageOriginalFilename] := by decide

/-- C8: `compile("{camera.make")` fails with `UnterminatedExpansion` at start
0 and width 12 as claimed, but the general rule fails: the opened-and-never-
closed brace `"{"` alone drives the scanner into its `ExpansionStart` terminal
state, whose match arm is `unreachable!`, so compile panics instead of
returning `UnterminatedExpansion`. -/
theorem unterminated_expansion_example :
    parseS "\x7bcamera.make" = PResult.err ⟨ErrorKind.UnterminatedExpansion, [], 0, 12⟩
      ∧ parseS "\x7b" = PResult.panic := by
  exact ⟨by decide, by decide⟩

/-- C9: the `{{` escape collapses to a single-character literal open brace,
the directive follows, and the explicit `image.original_filename` reference
suppresses the auto-append, giving exactly three items. -/
theorem double_brace_escape_example :
    parseS "\x7b\x7b%Y\x7bimage.original_filename\x7d"
        = PResult.ok [FmtItem.Literal ['\x7b'], FmtItem.DateTime ['%', 'Y'],
            FmtItem.Metadata MetadataKind.ImageOriginalFilename]
      ∧ byteLen ['\x7b'] = 1 := by
  exact ⟨by decide, by decide⟩

/-- C10: the catalog key for `CameraFlash` is the misspelled `camea.flash`:
the regular spelling fails to compile with `InvalidExpansion`, the misspelled
key compiles to `MetadataRef(CameraFlash)`, and every other key starts with
`camera.`, `lens.` or `image.`. -/
theorem camera_flash_key_misspelled :
    parseS "\x7bcamera.flash\x7d" = PResult.err ⟨ErrorKind.InvalidExpansion, [], 0, 14⟩
      ∧ parseS "\x7bcamea.flash\x7d"
          = PResult.ok [FmtItem.Metadata MetadataKind.CameraFlash, IMG_ORIG_FNAME_ITEM]
      ∧ (∀ p ∈ MD_KIND_MAP, p.snd = MetadataKind.CameraFlash ∨
          keyStartsWith "camera.".data p.fst.data = true ∨
          keyStartsWith "lens.".data p.fst.data = true ∨
          keyStartsWith "image.".data p.fst.data = true)
      ∧ (∀ p ∈ MD_KIND_MAP, p.snd = MetadataKind.CameraFlash → p.fst = "camea.flash") := by
  exact ⟨by decide, by decide, by decide, by decide⟩
